import Mathlib

/-!
Shallow embedding of the steam-trend-analysis repository core:
the ETL pipeline `SteamDataLoader.prepare_dataframe` (src/data_loader.py),
the tag normalizer `process_tags_safely` (app.py) and the regression
engine `SteamAnalytics.perform_linear_regression` (src/analytics.py).

Modelling conventions:
* JSON / Python values are the inductive `JValue`; a raw record is an
  association list of field name to value (key present iff the field is
  present in the record).
* A pandas DataFrame is modelled column-major: a row count plus an
  association list from column name to the list of its cells, every
  column having `nrows` cells by construction.
* A pandas cell is `CCell`: `missing` stands for NaN / NaT / None,
  `num` for a float cell (modelled exactly by a rational), `date` for a
  parsed timestamp, `jval` for an object-dtype cell holding a raw value.
* Machine floats are modelled by rationals; the numbers occurring in the
  claims are small and exactly representable.
* Reading a column that does not exist raises KeyError in pandas; this
  is the `keyError` case of `LoadError`, and `prepare_dataframe` returns
  `Except LoadError Table`.
-/

/-- A JSON / Python runtime value (null, bool, number, string, list, dict). -/
inductive JValue where
  | null
  | bool (b : Bool)
  | num (q : ℚ)
  | str (s : String)
  | arr (xs : List JValue)
  | obj (kvs : List (String × JValue))

/-- A raw record: association list from field name to value. -/
def RawRecord : Type := List (String × JValue)

/-- Lookup of a field in a raw record (first binding wins). -/
def lookupField : List (String × JValue) → String → Option JValue
  | [], _ => none
  | (k, v) :: rest, c => if k = c then some v else lookupField rest c

/-- The raw source file: either a mapping keyed by app id (parsed by
pandas with the index orientation) or an array of records (the fallback
parse in `prepare_dataframe`). -/
inductive Source where
  | keyed (records : List (String × RawRecord))
  | array (records : List RawRecord)

/-- Row records produced by ingestion: the keyed shape contributes its
values (keys become the index), the array shape its elements.  Both
parse branches of `prepare_dataframe` produce one DataFrame row per raw
record. -/
def ingest : Source → List RawRecord
  | Source.keyed records => records.map Prod.snd
  | Source.array records => records

/-- A single pandas cell of the canonical table.  `missing` models
NaN / NaT / None uniformly. -/
inductive CCell where
  | missing
  | num (q : ℚ)
  | date (y : ℕ) (m : ℕ) (d : ℕ)
  | jval (v : JValue)

/-- Column store of a DataFrame: name to cells. -/
def Cols : Type := List (String × List CCell)

/-- Column lookup (`df[c]`); `none` models a KeyError on read. -/
def lookupCol : List (String × List CCell) → String → Option (List CCell)
  | [], _ => none
  | (k, v) :: rest, c => if k = c then some v else lookupCol rest c

/-- Column assignment (`df[c] = vals`): replace in place when the column
exists, append otherwise. -/
def setCol : List (String × List CCell) → String → List CCell → List (String × List CCell)
  | [], c, vals => [(c, vals)]
  | (k, v) :: rest, c, vals =>
      if k = c then (c, vals) :: rest else (k, v) :: setCol rest c vals

/-- A pandas DataFrame, column-major, with an explicit row count (the
length of the index, kept even when no column exists). -/
structure Table where
  nrows : ℕ
  cols : List (String × List CCell)

/-- Cell of a table at a column and row index, when both exist. -/
def getCell (t : Table) (c : String) (i : ℕ) : Option CCell :=
  (lookupCol t.cols c).bind (fun col => col.get? i)

/-- Errors `prepare_dataframe` can raise: the fail-fast
FileNotFoundError of `_validate_source`, and a pandas KeyError from
reading a column that does not exist. -/
inductive LoadError where
  | sourceNotFound
  | keyError (col : String)
deriving DecidableEq, Repr

/-- The allow-list of feature columns of `prepare_dataframe`
(`important_columns`). -/
def important_columns : List String :=
  ["name", "release_date", "positive", "negative", "price",
   "average_playtime_forever", "genres", "tags"]

/-- The columns subjected to numeric coercion (`cols_to_numeric`). -/
def cols_to_numeric : List String :=
  ["price", "positive", "negative", "average_playtime_forever"]

/-- Whether any raw record carries the field: pandas builds the column
set of a DataFrame-of-records as the union of the record keys. -/
def sourceHasCol (recs : List RawRecord) (c : String) : Bool :=
  recs.any (fun r => (lookupField r c).isSome)

/-- Raw cell of a record under a column: a missing key or an explicit
JSON null both become a pandas missing value; anything else is kept as
an object cell. -/
def rawCell (r : RawRecord) (c : String) : CCell :=
  match lookupField r c with
  | none => CCell.missing
  | some JValue.null => CCell.missing
  | some v => CCell.jval v

/-- Ingestion plus projection (`temp_df[existing_cols].copy()`): the
retained columns are the allow-listed ones present in the source, each
populated record-wise; the row count is the number of records. -/
def initTable (recs : List RawRecord) : Table :=
  let existing := important_columns.filter (fun c => sourceHasCol recs c)
  { nrows := recs.length,
    cols := existing.map (fun c => (c, recs.map (fun r => rawCell r c))) }

/-- Parse of a decimal digit string. -/
def natOfDigits (l : List Char) : ℕ :=
  l.foldl (fun a c => a * 10 + (c.toNat - 48)) 0

/-- Parse of an unsigned decimal literal (digits with an optional
fractional part), as accepted by float coercion. -/
def parseUnsigned (cs : List Char) : Option ℚ :=
  let ip := cs.takeWhile Char.isDigit
  let rest := cs.dropWhile Char.isDigit
  match rest with
  | [] => if ip.isEmpty then none else some (natOfDigits ip : ℚ)
  | fc :: fp =>
      if fc = '.' ∧ fp.all Char.isDigit ∧ (ip.isEmpty = false ∨ fp.isEmpty = false) then
        some ((natOfDigits ip : ℚ) + (natOfDigits fp : ℚ) / ((10 : ℚ) ^ fp.length))
      else none

/-- Numeric parse of a string cell, as performed by
`pd.to_numeric(errors="coerce")` on plain decimal literals; literals
outside this shape (exponents, words) coerce to NaN, i.e. `none`. -/
def parseNumeric (s : String) : Option ℚ :=
  match s.trim.toList with
  | '-' :: cs => (parseUnsigned cs).map (fun q => -q)
  | '+' :: cs => parseUnsigned cs
  | cs => parseUnsigned cs

/-- Cell-level model of `pd.to_numeric(errors="coerce")`: numbers pass
through, booleans become 0/1, parseable decimal strings are parsed,
everything else (missing, containers, other strings, dates) becomes
missing. -/
def toNumericCoerced : CCell → Option ℚ
  | CCell.missing => none
  | CCell.num q => some q
  | CCell.date _ _ _ => none
  | CCell.jval (JValue.num q) => some q
  | CCell.jval (JValue.bool b) => some (if b then 1 else 0)
  | CCell.jval (JValue.str s) => parseNumeric s
  | CCell.jval _ => none

/-- Numeric coercion followed by the `.fillna(0)` imputation. -/
def toNumericFilled (c : CCell) : CCell :=
  CCell.num ((toNumericCoerced c).getD 0)

/-- Date parse of an ISO `YYYY-MM-DD` string; other strings yield
`none` (the NaT sentinel).  This models the date shapes exercised by
the repository; no claim depends on date cell values. -/
def parseDate (s : String) : Option (ℕ × ℕ × ℕ) :=
  match s.splitOn "-" with
  | [ys, ms, ds] =>
      let yl := ys.toList
      let ml := ms.toList
      let dl := ds.toList
      if yl.isEmpty = false ∧ yl.all Char.isDigit ∧
         ml.isEmpty = false ∧ ml.all Char.isDigit ∧
         dl.isEmpty = false ∧ dl.all Char.isDigit ∧
         1 ≤ natOfDigits ml ∧ natOfDigits ml ≤ 12 ∧
         1 ≤ natOfDigits dl ∧ natOfDigits dl ≤ 31 then
        some (natOfDigits yl, natOfDigits ml, natOfDigits dl)
      else none
  | _ => none

/-- Cell-level model of `pd.to_datetime(errors="coerce")`: parseable
date strings become timestamps, everything else the NaT sentinel
(`missing`). -/
def toDatetime (c : CCell) : CCell :=
  match c with
  | CCell.jval (JValue.str s) =>
      match parseDate s with
      | some (y, m, d) => CCell.date y m d
      | none => CCell.missing
  | _ => CCell.missing

/-- Line 93: `self.df["release_date"] = pd.to_datetime(self.df["release_date"], errors="coerce")`.
Reading the column raises a KeyError when it does not exist. -/
def coerceDates (t : Table) : Except LoadError Table :=
  match lookupCol t.cols "release_date" with
  | none => Except.error (LoadError.keyError "release_date")
  | some v => Except.ok { t with cols := setCol t.cols "release_date" (v.map toDatetime) }

/-- One iteration of the loop of lines 97-99: coerce a single column
when it exists, leave the table unchanged otherwise. -/
def numStep (tb : Table) (c : String) : Table :=
  match lookupCol tb.cols c with
  | none => tb
  | some v => { tb with cols := setCol tb.cols c (v.map toNumericFilled) }

/-- Lines 96-99: numeric coercion and zero imputation, applied to each
allow-listed numeric column guarded by an existence check. -/
def coerceNumerics (t : Table) : Table :=
  cols_to_numeric.foldl numStep t

/-- Lines 104-105: the tag cell normalizer
`lambda x: x if isinstance(x, (dict, list)) else` an empty dict. -/
def tagCellNormalize (c : CCell) : CCell :=
  match c with
  | CCell.jval (JValue.obj kvs) => CCell.jval (JValue.obj kvs)
  | CCell.jval (JValue.arr xs) => CCell.jval (JValue.arr xs)
  | _ => CCell.jval (JValue.obj [])

/-- Lines 103-108: normalize the tags column when present, otherwise
create it filled with empty dicts. -/
def normalizeTags (t : Table) : Table :=
  match lookupCol t.cols "tags" with
  | some v => { t with cols := setCol t.cols "tags" (v.map tagCellNormalize) }
  | none =>
      let filler := List.replicate t.nrows (CCell.jval (JValue.obj []))
      { t with cols := setCol t.cols "tags" filler }

/-- Lines 110-111: create the genres column filled with empty lists
when it is absent; cells of an existing genres column are untouched. -/
def defaultGenres (t : Table) : Table :=
  match lookupCol t.cols "genres" with
  | some _ => t
  | none =>
      let filler := List.replicate t.nrows (CCell.jval (JValue.arr []))
      { t with cols := setCol t.cols "genres" filler }

/-- Elementwise addition of two numeric cells (pandas Series addition;
both operands are numeric at the use site). -/
def addCell : CCell → CCell → CCell
  | CCell.num a, CCell.num b => CCell.num (a + b)
  | _, _ => CCell.missing

/-- Cell-level `.replace(0, 1)`. -/
def replaceZero (c : CCell) : CCell :=
  match c with
  | CCell.num q => if q = 0 then CCell.num 1 else CCell.num q
  | other => other

/-- Elementwise division of numeric cells.  In the pipeline the
denominator has just passed `replaceZero`, so it is never 0 there. -/
def divCell : CCell → CCell → CCell
  | CCell.num a, CCell.num b => CCell.num (a / b)
  | _, _ => CCell.missing

/-- Lines 118-119: derived features.  Reading `positive` or `negative`
raises a KeyError when the column does not exist (pandas evaluates the
left operand first).  Re-reading `positive` and `total_reviews` on line
119 yields the values already at hand, since the intervening assignment
wrote the distinct column `total_reviews`. -/
def addDerived (t : Table) : Except LoadError Table :=
  match lookupCol t.cols "positive" with
  | none => Except.error (LoadError.keyError "positive")
  | some pos =>
    match lookupCol t.cols "negative" with
    | none => Except.error (LoadError.keyError "negative")
    | some neg =>
      let total := List.zipWith addCell pos neg
      let ratio := List.zipWith divCell pos (total.map replaceZero)
      let t1 : Table := { t with cols := setCol t.cols "total_reviews" total }
      Except.ok { t1 with cols := setCol t1.cols "score_ratio" ratio }

/-- The file system visible to the loader: path to source contents. -/
def FileSystem : Type := String → Option Source

/-- `SteamDataLoader.prepare_dataframe` (lines 46-123): fail-fast
existence check, ingestion with array fallback, projection, date and
numeric coercion, tag/genre shape normalization, derived features. -/
def prepare_dataframe (fs : FileSystem) (path : String) : Except LoadError Table :=
  match fs path with
  | none => Except.error LoadError.sourceNotFound
  | some src =>
    let recs := ingest src
    let t0 := initTable recs
    match coerceDates t0 with
    | Except.error e => Except.error e
    | Except.ok t1 =>
      let t2 := coerceNumerics t1
      let t3 := normalizeTags t2
      let t4 := defaultGenres t3
      addDerived t4

/-- The `ast.literal_eval` model: a parser of Python literal text.  The
standard-library parser is treated as an oracle parameter; `none`
models the ValueError / SyntaxError raised on malformed input.
`process_tags_safely` consults it only on string input. -/
def LiteralEval : Type := String → Option JValue

/-- The helper `process_tags_safely` of app.py (lines 19-46): dict
input yields its keys as a list, list input is returned as is, string
input is parsed as a literal with the dict-keys / list / fallback
handling, anything else yields an empty list. -/
def process_tags_safely (litEval : LiteralEval) (tag_data : JValue) : JValue :=
  match tag_data with
  | JValue.obj kvs => JValue.arr (kvs.map (fun kv => JValue.str kv.1))
  | JValue.arr xs => JValue.arr xs
  | JValue.str s =>
      match litEval s with
      | some (JValue.obj kvs) => JValue.arr (kvs.map (fun kv => JValue.str kv.1))
      | some (JValue.arr xs) => JValue.arr xs
      | some _ => JValue.arr []
      | none => JValue.arr []
  | _ => JValue.arr []

/-- A float cell of a regression input column: NaN, an infinity, or a
finite value (modelled by a rational). -/
inductive PCell where
  | nan
  | pinf
  | ninf
  | val (q : ℚ)
deriving DecidableEq, Repr

/-- A row of the regression input restricted to the three required
columns (`model_df = df[required_cols]`); values of any other column
cannot influence `perform_linear_regression`. -/
structure RegRow where
  score_ratio : PCell
  price : PCell
  average_playtime_forever : PCell
deriving DecidableEq, Repr

/-- A tabular regression input: its column-name set plus its rows
viewed through the three required columns. -/
structure RegInput where
  cols : List String
  rows : List RegRow

/-- The `required_cols` list of `perform_linear_regression`. -/
def required_cols : List String :=
  ["score_ratio", "price", "average_playtime_forever"]

/-- Whether a cell is the missing-value marker NaN. -/
def isNanCell : PCell → Bool
  | PCell.nan => true
  | _ => false

/-- Whether a cell is an infinity. -/
def isInfCell : PCell → Bool
  | PCell.pinf => true
  | PCell.ninf => true
  | _ => false

/-- Whether a row has a missing value in one of the three required
columns. -/
def rowHasNan (r : RegRow) : Bool :=
  isNanCell r.score_ratio || isNanCell r.price || isNanCell r.average_playtime_forever

/-- Whether a row has an infinite value in one of the three required
columns. -/
def rowHasInf (r : RegRow) : Bool :=
  isInfCell r.score_ratio || isInfCell r.price || isInfCell r.average_playtime_forever

/-- The listwise deletion `df[required_cols].dropna()`: rows with a NaN
among the three required columns are removed; nothing else is removed
(pandas dropna does not treat infinities as missing). -/
def dropnaRows (rows : List RegRow) : List RegRow :=
  rows.filter (fun r => !rowHasNan r)

/-- The schema check `all(col in df.columns for col in required_cols)`. -/
def schemaOk (df : RegInput) : Bool :=
  required_cols.all (fun c => df.cols.contains c)

/-- The diagnostic text of the schema guardrail. -/
def schemaErrorMsg : String :=
  "Fehler: Datensatz fehlen erforderliche Spalten für die Regression."

/-- The diagnostic text of the sample-size guardrail. -/
def sampleTooSmallMsg : String :=
  "Datensatz zu klein für eine statistisch valide Inferenzanalyse (n < 30)."

/-- The prefix of the diagnostic text produced by the exception
handler around the fitting phase. -/
def computationErrorMsgHead : String :=
  "Berechnungsfehler im OLS-Modell: "

/-- The model of the fitting phase (statsmodels OLS specification, fit
and report rendering): an oracle from the cleaned rows to either a
rendered summary text or a raised runtime error. -/
def FitOracle : Type := List RegRow → Except String String

/-- `SteamAnalytics.perform_linear_regression` (src/analytics.py lines
20-102): schema check, listwise deletion over the three required
columns, the n < 30 sample-size guardrail, then the fitting phase
wrapped in an exception handler that converts any raised error into a
diagnostic text. -/
def perform_linear_regression (fit : FitOracle) (df : RegInput) : String :=
  if schemaOk df = false then
    schemaErrorMsg
  else
    let model_df := dropnaRows df.rows
    if model_df.length < 30 then
      sampleTooSmallMsg
    else
      match fit model_df with
      | Except.ok s => s
      | Except.error e => computationErrorMsgHead ++ e

/-- Whether a canonical-table cell is mapping- or list-typed (the shape
the tags invariant asks for). -/
def isDictOrListCell : CCell → Bool
  | CCell.jval (JValue.obj _) => true
  | CCell.jval (JValue.arr _) => true
  | _ => false

/-- Whether a canonical-table cell is list-typed (the shape the genres
invariant asks for). -/
def isListCell : CCell → Bool
  | CCell.jval (JValue.arr _) => true
  | _ => false

/-- Example record used by several concrete evaluations: complete
enough that `prepare_dataframe` reaches the feature-engineering step. -/
def recNegCount : RawRecord :=
  [("name", JValue.str "A"), ("release_date", JValue.str "2020-01-01"),
   ("positive", JValue.num 3), ("negative", JValue.num (-1))]

/-- Source holding `recNegCount` under one app id. -/
def srcNegCount : Source := Source.keyed [("1", recNegCount)]

/-- Example record with the perfect 100 / 0 review split of the claim. -/
def recHundred : RawRecord :=
  [("name", JValue.str "A"), ("release_date", JValue.str "2020-01-01"),
   ("positive", JValue.num 100), ("negative", JValue.num 0)]

/-- Source holding `recHundred` under one app id. -/
def srcHundred : Source := Source.keyed [("1", recHundred)]

/-- Record carrying only a name: every other allow-listed field is
absent from the whole source. -/
def recOnlyName : RawRecord := [("name", JValue.str "A")]

/-- Source whose single record carries only a name. -/
def srcOnlyName : Source := Source.keyed [("1", recOnlyName)]

/-- Record with a well-formed genres list. -/
def recGenresList : RawRecord :=
  [("name", JValue.str "A"), ("release_date", JValue.str "2020-01-01"),
   ("positive", JValue.num 1), ("negative", JValue.num 1),
   ("genres", JValue.arr [JValue.str "Action"]),
   ("tags", JValue.str "stringified tag data")]

/-- Record with an explicit null genres field. -/
def recGenresNull : RawRecord :=
  [("name", JValue.str "B"), ("release_date", JValue.str "2020-01-01"),
   ("positive", JValue.num 2), ("negative", JValue.num 0),
   ("genres", JValue.null)]

/-- Source where the genres column exists but one row carries null. -/
def srcGenresNull : Source :=
  Source.keyed [("1", recGenresList), ("2", recGenresNull)]

/-- File system exposing a fixed source under every path. -/
def constFS (src : Source) : FileSystem := fun _ => some src

/-- File system with no file at all. -/
def emptyFS : FileSystem := fun _ => none

/-- Number of raw records a source file contains. -/
def sourceRecordCount : Source → ℕ
  | Source.keyed records => records.length
  | Source.array records => records.length

/-- Placeholder table used only to destructure an `Except` result. -/
def fallbackTable : Table := { nrows := 0, cols := [] }

/-- The table of a successful load (the placeholder otherwise). -/
def tableOfExcept : Except LoadError Table → Table
  | Except.ok t => t
  | Except.error _ => fallbackTable

/-- Canonical table of the negative-count example source. -/
def tNegCount : Table :=
  tableOfExcept (prepare_dataframe (constFS srcNegCount) "data/games.json")

/-- Canonical table of the 100-positive example source. -/
def tHundred : Table :=
  tableOfExcept (prepare_dataframe (constFS srcHundred) "data/games.json")

/-- Canonical table of the null-genres example source. -/
def tGenresNull : Table :=
  tableOfExcept (prepare_dataframe (constFS srcGenresNull) "data/games.json")

/-- The try/except wrapper around the fitting phase: a successful fit
returns its rendered summary, a raised error is converted into the
computation-error diagnostic text. -/
def fitOutcomeText (fit : FitOracle) (rows : List RegRow) : String :=
  match fit rows with
  | Except.ok s => s
  | Except.error e => computationErrorMsgHead ++ e

/-- Regression row whose three required cells are finite zeros. -/
def rowZero : RegRow :=
  { score_ratio := PCell.val 0, price := PCell.val 0,
    average_playtime_forever := PCell.val 0 }

/-- Regression row with an infinite price and no NaN. -/
def rowInf : RegRow :=
  { score_ratio := PCell.val 0, price := PCell.pinf,
    average_playtime_forever := PCell.val 0 }

/-- Regression input with the required schema and two clean rows. -/
def dfTiny : RegInput := { cols := required_cols, rows := [rowZero, rowZero] }

/-- Regression input with the required schema and thirty clean rows. -/
def dfThirty : RegInput := { cols := required_cols, rows := List.replicate 30 rowZero }

/-- Regression input with an infinite row among thirty clean rows. -/
def dfInf : RegInput := { cols := required_cols, rows := rowInf :: List.replicate 29 rowZero }

/-- Fit oracle that renders a summary text. -/
def fitOk : FitOracle := fun _ => Except.ok "OLS Regression Results"

/-- Fit oracle that raises a numerical error. -/
def fitFail : FitOracle := fun _ => Except.error "singular matrix"

/-! ## Column-store lemmas -/

theorem lookupCol_setCol_self (l : List (String × List CCell)) (c : String) (v : List CCell) :
    lookupCol (setCol l c v) c = some v := by
  induction l with
  | nil => simp [setCol, lookupCol]
  | cons hd tl ih =>
      by_cases h : hd.1 = c
      · simp [setCol, lookupCol, h]
      · simp [setCol, lookupCol, h, ih]

theorem lookupCol_setCol_ne (l : List (String × List CCell)) (c cx : String) (v : List CCell)
    (h : cx ≠ c) : lookupCol (setCol l c v) cx = lookupCol l cx := by
  induction l with
  | nil => simp [setCol, lookupCol, Ne.symm h]
  | cons hd tl ih =>
      by_cases hk : hd.1 = c
      · subst hk
        simp [setCol, lookupCol, Ne.symm h]
      · by_cases hx : hd.1 = cx
        · simp [setCol, lookupCol, hk, hx, h]
        · simp [setCol, lookupCol, hk, hx, ih]

theorem lookupCol_mapped (l : List String) (f : String → List CCell) (c : String)
    (h : c ∈ l) : lookupCol (l.map (fun x => (x, f x))) c = some (f c) := by
  induction l with
  | nil => cases h
  | cons hd tl ih =>
      by_cases hk : hd = c
      · subst hk
        simp [lookupCol]
      · rcases List.mem_cons.mp h with h1 | h1
        · exact absurd h1.symm hk
        · simp [lookupCol, hk, ih h1]

theorem lookupCol_mapped_none (l : List String) (f : String → List CCell) (c : String)
    (h : c ∉ l) : lookupCol (l.map (fun x => (x, f x))) c = none := by
  induction l with
  | nil => rfl
  | cons hd tl ih =>
      have hk : hd ≠ c := fun he => h (he ▸ List.mem_cons_self hd tl)
      have htl : c ∉ tl := fun hm => h (List.mem_cons_of_mem hd hm)
      simp [lookupCol, hk, ih htl]

theorem get?_zipWith {α β γ : Type} (f : α → β → γ) (l1 : List α) (l2 : List β) (i : ℕ) :
    (List.zipWith f l1 l2).get? i =
      (l1.get? i).bind (fun a => (l2.get? i).map (fun b => f a b)) := by
  induction l1 generalizing l2 i with
  | nil => simp
  | cons a tl ih =>
      cases l2 with
      | nil => simp
      | cons b tl2 =>
          cases i with
          | zero => simp
          | succ j => simpa using ih tl2 j

/-! ## Stage lemmas for the loader pipeline -/

theorem initTable_nrows (recs : List RawRecord) : (initTable recs).nrows = recs.length := rfl

theorem initTable_lookup (recs : List RawRecord) (c : String)
    (hmem : c ∈ important_columns) (hsrc : sourceHasCol recs c = true) :
    lookupCol (initTable recs).cols c = some (recs.map (fun r => rawCell r c)) := by
  have h : c ∈ important_columns.filter (fun x => sourceHasCol recs x) :=
    List.mem_filter.mpr ⟨hmem, hsrc⟩
  simpa [initTable] using
    lookupCol_mapped (important_columns.filter (fun x => sourceHasCol recs x))
      (fun x => recs.map (fun r => rawCell r x)) c h

theorem initTable_lookup_none (recs : List RawRecord) (c : String)
    (hsrc : sourceHasCol recs c = false) :
    lookupCol (initTable recs).cols c = none := by
  have h : c ∉ important_columns.filter (fun x => sourceHasCol recs x) := by
    intro hm
    exact absurd (List.mem_filter.mp hm).2 (by simp [hsrc])
  simpa [initTable] using
    lookupCol_mapped_none (important_columns.filter (fun x => sourceHasCol recs x))
      (fun x => recs.map (fun r => rawCell r x)) c h

theorem coerceDates_ok (t t1 : Table) (h : coerceDates t = Except.ok t1) :
    ∃ v, lookupCol t.cols "release_date" = some v ∧
      t1.nrows = t.nrows ∧
      t1.cols = setCol t.cols "release_date" (v.map toDatetime) := by
  unfold coerceDates at h
  cases hv : lookupCol t.cols "release_date" with
  | none => rw [hv] at h; cases h
  | some v =>
      rw [hv] at h
      refine ⟨v, rfl, ?_, ?_⟩ <;> cases h <;> rfl

theorem coerceDates_err (t : Table) (h : lookupCol t.cols "release_date" = none) :
    coerceDates t = Except.error (LoadError.keyError "release_date") := by
  unfold coerceDates
  rw [h]

theorem numStep_nrows (t : Table) (c : String) : (numStep t c).nrows = t.nrows := by
  unfold numStep
  cases lookupCol t.cols c <;> rfl

theorem numStep_lookup_ne (t : Table) (c cx : String) (h : cx ≠ c) :
    lookupCol (numStep t c).cols cx = lookupCol t.cols cx := by
  unfold numStep
  cases hv : lookupCol t.cols c with
  | none => rfl
  | some v => simpa using lookupCol_setCol_ne t.cols c cx (v.map toNumericFilled) h

theorem numStep_lookup_self (t : Table) (c : String) :
    lookupCol (numStep t c).cols c = (lookupCol t.cols c).map (List.map toNumericFilled) := by
  unfold numStep
  cases hv : lookupCol t.cols c with
  | none => simpa using hv
  | some v => simpa using lookupCol_setCol_self t.cols c (v.map toNumericFilled)

theorem coerceNumerics_eq (t : Table) :
    coerceNumerics t =
      numStep (numStep (numStep (numStep t "price") "positive") "negative")
        "average_playtime_forever" := rfl

theorem coerceNumerics_nrows (t : Table) : (coerceNumerics t).nrows = t.nrows := by
  rw [coerceNumerics_eq, numStep_nrows, numStep_nrows, numStep_nrows, numStep_nrows]

theorem coerceNumerics_lookup_notmem (t : Table) (cx : String)
    (h : cx ∉ cols_to_numeric) :
    lookupCol (coerceNumerics t).cols cx = lookupCol t.cols cx := by
  have h1 : cx ≠ "price" := by intro he; exact h (by simp [cols_to_numeric, he])
  have h2 : cx ≠ "positive" := by intro he; exact h (by simp [cols_to_numeric, he])
  have h3 : cx ≠ "negative" := by intro he; exact h (by simp [cols_to_numeric, he])
  have h4 : cx ≠ "average_playtime_forever" := by
    intro he; exact h (by simp [cols_to_numeric, he])
  rw [coerceNumerics_eq, numStep_lookup_ne _ _ _ h4, numStep_lookup_ne _ _ _ h3,
    numStep_lookup_ne _ _ _ h2, numStep_lookup_ne _ _ _ h1]

theorem coerceNumerics_lookup_positive (t : Table) :
    lookupCol (coerceNumerics t).cols "positive" =
      (lookupCol t.cols "positive").map (List.map toNumericFilled) := by
  rw [coerceNumerics_eq,
    numStep_lookup_ne _ _ _ (by decide), numStep_lookup_ne _ _ _ (by decide),
    numStep_lookup_self, numStep_lookup_ne _ _ _ (by decide)]

theorem coerceNumerics_lookup_negative (t : Table) :
    lookupCol (coerceNumerics t).cols "negative" =
      (lookupCol t.cols "negative").map (List.map toNumericFilled) := by
  rw [coerceNumerics_eq,
    numStep_lookup_ne _ _ _ (by decide), numStep_lookup_self,
    numStep_lookup_ne _ _ _ (by decide), numStep_lookup_ne _ _ _ (by decide)]

theorem normalizeTags_nrows (t : Table) : (normalizeTags t).nrows = t.nrows := by
  unfold normalizeTags
  cases lookupCol t.cols "tags" <;> rfl

theorem normalizeTags_lookup_ne (t : Table) (cx : String) (h : cx ≠ "tags") :
    lookupCol (normalizeTags t).cols cx = lookupCol t.cols cx := by
  unfold normalizeTags
  cases lookupCol t.cols "tags" with
  | none => simpa using lookupCol_setCol_ne t.cols "tags" cx _ h
  | some v => simpa using lookupCol_setCol_ne t.cols "tags" cx _ h

theorem normalizeTags_lookup_tags (t : Table) :
    lookupCol (normalizeTags t).cols "tags" =
      some ((lookupCol t.cols "tags").elim
        (List.replicate t.nrows (CCell.jval (JValue.obj []))) (List.map tagCellNormalize)) := by
  unfold normalizeTags
  cases lookupCol t.cols "tags" with
  | none => simpa using lookupCol_setCol_self t.cols "tags" _
  | some v => simpa using lookupCol_setCol_self t.cols "tags" _

theorem defaultGenres_nrows (t : Table) : (defaultGenres t).nrows = t.nrows := by
  unfold defaultGenres
  cases lookupCol t.cols "genres" <;> rfl

theorem defaultGenres_lookup_ne (t : Table) (cx : String) (h : cx ≠ "genres") :
    lookupCol (defaultGenres t).cols cx = lookupCol t.cols cx := by
  unfold defaultGenres
  cases lookupCol t.cols "genres" with
  | none => simpa using lookupCol_setCol_ne t.cols "genres" cx _ h
  | some v => rfl

theorem defaultGenres_lookup_genres (t : Table) :
    lookupCol (defaultGenres t).cols "genres" =
      some ((lookupCol t.cols "genres").elim
        (List.replicate t.nrows (CCell.jval (JValue.arr []))) (fun v => v)) := by
  unfold defaultGenres
  cases hv : lookupCol t.cols "genres" with
  | none => simpa using lookupCol_setCol_self t.cols "genres" _
  | some v => simpa using hv

theorem addDerived_ok (t t1 : Table) (h : addDerived t = Except.ok t1) :
    ∃ pos neg, lookupCol t.cols "positive" = some pos ∧
      lookupCol t.cols "negative" = some neg ∧
      t1.nrows = t.nrows ∧
      lookupCol t1.cols "score_ratio" =
        some (List.zipWith divCell pos ((List.zipWith addCell pos neg).map replaceZero)) ∧
      lookupCol t1.cols "positive" = some pos ∧
      lookupCol t1.cols "negative" = some neg ∧
      (∀ cx, cx ≠ "total_reviews" → cx ≠ "score_ratio" →
        lookupCol t1.cols cx = lookupCol t.cols cx) := by
  unfold addDerived at h
  cases hpos : lookupCol t.cols "positive" with
  | none => rw [hpos] at h; cases h
  | some pos =>
      rw [hpos] at h
      cases hneg : lookupCol t.cols "negative" with
      | none => rw [hneg] at h; cases h
      | some neg =>
          rw [hneg] at h
          cases h
          refine ⟨pos, neg, rfl, rfl, rfl, ?_, ?_, ?_, ?_⟩
          · simpa using lookupCol_setCol_self _ "score_ratio" _
          · rw [lookupCol_setCol_ne _ _ _ _ (by decide),
              lookupCol_setCol_ne _ _ _ _ (by decide)]
            exact hpos
          · rw [lookupCol_setCol_ne _ _ _ _ (by decide),
              lookupCol_setCol_ne _ _ _ _ (by decide)]
            exact hneg
          · intro cx hx1 hx2
            rw [lookupCol_setCol_ne _ _ _ _ hx2, lookupCol_setCol_ne _ _ _ _ hx1]

theorem prepare_ok_destruct (fs : FileSystem) (path : String) (t : Table)
    (h : prepare_dataframe fs path = Except.ok t) :
    ∃ src t1, fs path = some src ∧
      coerceDates (initTable (ingest src)) = Except.ok t1 ∧
      addDerived (defaultGenres (normalizeTags (coerceNumerics t1))) = Except.ok t := by
  unfold prepare_dataframe at h
  cases hfs : fs path with
  | none => rw [hfs] at h; cases h
  | some src =>
      rw [hfs] at h
      have h2 : (match coerceDates (initTable (ingest src)) with
          | Except.error e => (Except.error e : Except LoadError Table)
          | Except.ok t1 =>
              addDerived (defaultGenres (normalizeTags (coerceNumerics t1)))) =
          Except.ok t := h
      cases hcd : coerceDates (initTable (ingest src)) with
      | error e => rw [hcd] at h2; cases h2
      | ok t1 =>
          rw [hcd] at h2
          exact ⟨src, t1, rfl, hcd, h2⟩

/-! ## Cell-level facts -/

theorem tagCellNormalize_shape (c : CCell) : isDictOrListCell (tagCellNormalize c) = true := by
  cases c with
  | missing => rfl
  | num q => rfl
  | date y m d => rfl
  | jval v => cases v <;> rfl

theorem tagCellNormalize_of_not_shaped (c : CCell) (h : isDictOrListCell c = false) :
    tagCellNormalize c = CCell.jval (JValue.obj []) := by
  cases c with
  | missing => rfl
  | num q => rfl
  | date y m d => rfl
  | jval v => cases v <;> first | rfl | exact absurd h (by simp [isDictOrListCell])

theorem mem_of_get?_eq {α : Type} (l : List α) (i : ℕ) (a : α) (h : l.get? i = some a) :
    a ∈ l := by
  induction l generalizing i with
  | nil => cases h
  | cons hd tl ih =>
      cases i with
      | zero =>
          have he : hd = a := by simpa using h
          exact he ▸ List.mem_cons_self hd tl
      | succ j => exact List.mem_cons_of_mem hd (ih j h)

theorem get?_of_map {α β : Type} (f : α → β) (l : List α) (i : ℕ) :
    (l.map f).get? i = (l.get? i).map f := by
  induction l generalizing i with
  | nil => simp
  | cons hd tl ih => cases i <;> simp [ih]

theorem coerceDates_error_shape (t : Table) (e : LoadError)
    (h : coerceDates t = Except.error e) : e = LoadError.keyError "release_date" := by
  unfold coerceDates at h
  cases hv : lookupCol t.cols "release_date" with
  | none => rw [hv] at h; cases h; rfl
  | some v => rw [hv] at h; cases h

theorem addDerived_error_shape (t : Table) (e : LoadError)
    (h : addDerived t = Except.error e) :
    e = LoadError.keyError "positive" ∨ e = LoadError.keyError "negative" := by
  unfold addDerived at h
  cases hp : lookupCol t.cols "positive" with
  | none => rw [hp] at h; cases h; exact Or.inl rfl
  | some pos =>
      rw [hp] at h
      cases hn : lookupCol t.cols "negative" with
      | none => rw [hn] at h; cases h; exact Or.inr rfl
      | some neg => rw [hn] at h; cases h

/-! ## Final-table characterizations -/

theorem prepare_ok_nrows (fs : FileSystem) (path : String) (src : Source) (t : Table)
    (hfs : fs path = some src) (h : prepare_dataframe fs path = Except.ok t) :
    t.nrows = (ingest src).length := by
  obtain ⟨src2, t1, hfs2, hcd, had⟩ := prepare_ok_destruct fs path t h
  rw [hfs] at hfs2
  cases hfs2
  obtain ⟨v, hv, hnr, hcols⟩ := coerceDates_ok _ _ hcd
  obtain ⟨pos, neg, _, _, hnr2, _⟩ := addDerived_ok _ _ had
  rw [hnr2, defaultGenres_nrows, normalizeTags_nrows, coerceNumerics_nrows, hnr,
    initTable_nrows]

theorem prepare_ok_score_cols (fs : FileSystem) (path : String) (t : Table)
    (h : prepare_dataframe fs path = Except.ok t) :
    ∃ pos neg, lookupCol t.cols "positive" = some pos ∧
      lookupCol t.cols "negative" = some neg ∧
      lookupCol t.cols "score_ratio" =
        some (List.zipWith divCell pos ((List.zipWith addCell pos neg).map replaceZero)) := by
  obtain ⟨src, t1, hfs, hcd, had⟩ := prepare_ok_destruct fs path t h
  obtain ⟨pos, neg, _, _, _, hscore, hpos, hneg, _⟩ := addDerived_ok _ _ had
  exact ⟨pos, neg, hpos, hneg, hscore⟩

theorem prepare_score_cell (fs : FileSystem) (path : String) (t : Table) (i : ℕ) (p n : ℚ)
    (h : prepare_dataframe fs path = Except.ok t)
    (hp : getCell t "positive" i = some (CCell.num p))
    (hn : getCell t "negative" i = some (CCell.num n)) :
    getCell t "score_ratio" i =
      some (CCell.num (p / (if p + n = 0 then 1 else p + n))) := by
  obtain ⟨pos, neg, hpos, hneg, hscore⟩ := prepare_ok_score_cols fs path t h
  unfold getCell at hp hn ⊢
  rw [hpos] at hp
  rw [hneg] at hn
  rw [hscore]
  simp only [Option.some_bind] at hp hn ⊢
  rw [get?_zipWith, hp, get?_of_map, get?_zipWith, hp, hn]
  by_cases hz : p + n = 0 <;> simp [addCell, replaceZero, divCell, hz]

theorem prepare_tags_col (fs : FileSystem) (path : String) (t : Table)
    (h : prepare_dataframe fs path = Except.ok t) :
    ∃ tv, lookupCol t.cols "tags" = some tv ∧
      ∀ c ∈ tv, isDictOrListCell c = true := by
  obtain ⟨src, t1, hfs, hcd, had⟩ := prepare_ok_destruct fs path t h
  obtain ⟨pos, neg, _, _, _, _, _, _, hpres⟩ := addDerived_ok _ _ had
  have h1 : lookupCol t.cols "tags" =
      lookupCol (normalizeTags (coerceNumerics t1)).cols "tags" := by
    rw [hpres "tags" (by decide) (by decide), defaultGenres_lookup_ne _ _ (by decide)]
  rw [normalizeTags_lookup_tags] at h1
  refine ⟨_, h1, ?_⟩
  intro c hc
  cases hv : lookupCol (coerceNumerics t1).cols "tags" with
  | none =>
      rw [hv] at hc
      simp only [Option.elim] at hc
      have := List.eq_of_mem_replicate hc
      rw [this]
      rfl
  | some v =>
      rw [hv] at hc
      simp only [Option.elim] at hc
      obtain ⟨c0, _, hc0⟩ := List.mem_map.mp hc
      rw [← hc0]
      exact tagCellNormalize_shape c0

theorem coerceDates_ok_lookup_ne (t t1 : Table) (cx : String)
    (h : coerceDates t = Except.ok t1) (hne : cx ≠ "release_date") :
    lookupCol t1.cols cx = lookupCol t.cols cx := by
  obtain ⟨v, hv, hnr, hcols⟩ := coerceDates_ok t t1 h
  rw [hcols]
  exact lookupCol_setCol_ne t.cols "release_date" cx _ hne

theorem prepare_tags_provenance (fs : FileSystem) (path : String) (src : Source) (t : Table)
    (hfs : fs path = some src) (h : prepare_dataframe fs path = Except.ok t)
    (hsrc : sourceHasCol (ingest src) "tags" = true) :
    lookupCol t.cols "tags" =
      some (((ingest src).map (fun r => rawCell r "tags")).map tagCellNormalize) := by
  obtain ⟨src2, t1, hfs2, hcd, had⟩ := prepare_ok_destruct fs path t h
  rw [hfs] at hfs2
  cases hfs2
  obtain ⟨pos, neg, _, _, _, _, _, _, hpres⟩ := addDerived_ok _ _ had
  rw [hpres "tags" (by decide) (by decide), defaultGenres_lookup_ne _ _ (by decide),
    normalizeTags_lookup_tags, coerceNumerics_lookup_notmem _ _ (by decide),
    coerceDates_ok_lookup_ne _ _ _ hcd (by decide),
    initTable_lookup (ingest src) "tags" (by decide) hsrc]
  rfl

theorem prepare_genres_absent (fs : FileSystem) (path : String) (src : Source) (t : Table)
    (hfs : fs path = some src) (h : prepare_dataframe fs path = Except.ok t)
    (hsrc : sourceHasCol (ingest src) "genres" = false) :
    lookupCol t.cols "genres" =
      some (List.replicate (ingest src).length (CCell.jval (JValue.arr []))) := by
  obtain ⟨src2, t1, hfs2, hcd, had⟩ := prepare_ok_destruct fs path t h
  rw [hfs] at hfs2
  cases hfs2
  obtain ⟨pos, neg, _, _, _, _, _, _, hpres⟩ := addDerived_ok _ _ had
  have hg3 : lookupCol (normalizeTags (coerceNumerics t1)).cols "genres" = none := by
    rw [normalizeTags_lookup_ne _ _ (by decide), coerceNumerics_lookup_notmem _ _ (by decide),
      coerceDates_ok_lookup_ne _ _ _ hcd (by decide),
      initTable_lookup_none (ingest src) "genres" hsrc]
  have hnr3 : (normalizeTags (coerceNumerics t1)).nrows = (ingest src).length := by
    obtain ⟨v, hv, hnr, hcols⟩ := coerceDates_ok _ _ hcd
    rw [normalizeTags_nrows, coerceNumerics_nrows, hnr, initTable_nrows]
  rw [hpres "genres" (by decide) (by decide), defaultGenres_lookup_genres, hg3, ← hnr3]
  rfl

/-! ## Claim theorems -/

/-- C5: for every input table containing the three required columns, if
after restricting to them and dropping rows with missing values fewer
than 30 rows remain, `perform_linear_regression` returns the
too-small-sample diagnostic text and does not attempt a fit (the result
is the same for every fit oracle); with 30 or more cleaned rows the
guardrail does not trigger and the fitting phase is invoked on the
cleaned rows. -/
theorem c5_sample_size_guardrail (fit : FitOracle) (df : RegInput)
    (hschema : schemaOk df = true) :
    ((dropnaRows df.rows).length < 30 →
      perform_linear_regression fit df = sampleTooSmallMsg) ∧
    (30 ≤ (dropnaRows df.rows).length →
      perform_linear_regression fit df = fitOutcomeText fit (dropnaRows df.rows)) := by
  constructor
  · intro hlen
    unfold perform_linear_regression
    rw [hschema]
    simp [hlen]
  · intro hlen
    unfold perform_linear_regression fitOutcomeText
    rw [hschema]
    simp [Nat.not_lt.mpr hlen]

/-- Witness for C5 at concrete inputs: a 2-row clean table triggers the
guardrail, a 30-row clean table reaches the fitting phase. -/
theorem c5_sample_size_guardrail_witness :
    schemaOk dfTiny = true ∧
    (dropnaRows dfTiny.rows).length < 30 ∧
    perform_linear_regression fitOk dfTiny = sampleTooSmallMsg ∧
    schemaOk dfThirty = true ∧
    30 ≤ (dropnaRows dfThirty.rows).length ∧
    perform_linear_regression fitOk dfThirty =
      fitOutcomeText fitOk (dropnaRows dfThirty.rows) :=
  ⟨rfl, by decide, (c5_sample_size_guardrail fitOk dfTiny rfl).1 (by decide),
   rfl, by decide, (c5_sample_size_guardrail fitOk dfThirty rfl).2 (by decide)⟩

/-- C6: for every input table that passes the schema and sample-size
checks, a runtime failure raised by the fitting phase is caught and
converted into the computation-error diagnostic text; no exception
propagates (the function returns that text). -/
theorem c6_fit_errors_become_text (fit : FitOracle) (df : RegInput) (e : String)
    (hschema : schemaOk df = true)
    (hlen : 30 ≤ (dropnaRows df.rows).length)
    (herr : fit (dropnaRows df.rows) = Except.error e) :
    perform_linear_regression fit df = computationErrorMsgHead ++ e := by
  unfold perform_linear_regression
  rw [hschema]
  simp [Nat.not_lt.mpr hlen, herr]

/-- Witness for C6 at a concrete input: a failing fit on a 30-row clean
table yields the computation-error text. -/
theorem c6_fit_errors_become_text_witness :
    schemaOk dfThirty = true ∧
    30 ≤ (dropnaRows dfThirty.rows).length ∧
    fitFail (dropnaRows dfThirty.rows) = Except.error "singular matrix" ∧
    perform_linear_regression fitFail dfThirty =
      computationErrorMsgHead ++ "singular matrix" :=
  ⟨rfl, by decide, rfl,
   c6_fit_errors_become_text fitFail dfThirty "singular matrix" rfl (by decide) rfl⟩

/-- C10: the cleaning step of `perform_linear_regression` removes
exactly the rows with a missing value among the three required columns;
a row with infinite values but no missing value is retained, counts
toward the 30-row threshold (it is a member of the cleaned list whose
length is compared), and is passed unchanged to the fitting step. -/
theorem c10_infinite_rows_retained (df : RegInput) (r : RegRow) (hmem : r ∈ df.rows) :
    (r ∈ dropnaRows df.rows ↔ rowHasNan r = false) ∧
    (rowHasNan r = false → rowHasInf r = true →
      r ∈ dropnaRows df.rows ∧
      ∀ fit : FitOracle, schemaOk df = true → 30 ≤ (dropnaRows df.rows).length →
        perform_linear_regression fit df = fitOutcomeText fit (dropnaRows df.rows)) := by
  have hiff : r ∈ dropnaRows df.rows ↔ rowHasNan r = false := by
    unfold dropnaRows
    rw [List.mem_filter]
    constructor
    · rintro ⟨_, h2⟩
      simpa using h2
    · intro h2
      exact ⟨hmem, by simpa using h2⟩
  refine ⟨hiff, fun hnn hinf => ⟨hiff.mpr hnn, fun fit hschema hlen => ?_⟩⟩
  unfold perform_linear_regression fitOutcomeText
  rw [hschema]
  simp [Nat.not_lt.mpr hlen]

/-- Witness for C10 at a concrete input: a row with an infinite price
and no NaN among thirty rows survives cleaning and reaches the fit. -/
theorem c10_infinite_rows_retained_witness :
    rowInf ∈ dfInf.rows ∧ rowHasNan rowInf = false ∧ rowHasInf rowInf = true ∧
    rowInf ∈ dropnaRows dfInf.rows ∧
    perform_linear_regression fitOk dfInf = fitOutcomeText fitOk (dropnaRows dfInf.rows) :=
  ⟨by decide, by decide, by decide,
   ((c10_infinite_rows_retained dfInf rowInf (by decide)).2 (by decide) (by decide)).1,
   ((c10_infinite_rows_retained dfInf rowInf (by decide)).2 (by decide) (by decide)).2
     fitOk rfl (by decide)⟩

/-- C4 counterexample: the claim says a mapping is returned unchanged,
but `process_tags_safely` returns the mapping's keys as a list. -/
theorem c4_counterexample :
    process_tags_safely (fun _ => none) (JValue.obj [("Action", JValue.num 5)]) =
      JValue.arr [JValue.str "Action"] ∧
    process_tags_safely (fun _ => none) (JValue.obj [("Action", JValue.num 5)]) ≠
      JValue.obj [("Action", JValue.num 5)] := by
  constructor
  · rfl
  · intro h
    have h2 : JValue.arr [JValue.str "Action"] = JValue.obj [("Action", JValue.num 5)] := h
    exact JValue.noConfusion h2

/-- C4 (amended): `process_tags_safely` returns the keys of a mapping
as a list (not the mapping unchanged), a list unchanged, for text the
result of a literal parse (parsed mapping gives its keys-as-list, a
parsed list is returned, any other parse outcome including failure
gives an empty list), and an empty list for any other input type
(including null); for every input and every parser behaviour the result
is a list, so the function never raises and never returns null. -/
theorem c4_normalizer_contract_amended (litEval : LiteralEval) (v : JValue) :
    (∃ xs, process_tags_safely litEval v = JValue.arr xs) ∧
    (∀ kvs, v = JValue.obj kvs →
      process_tags_safely litEval v = JValue.arr (kvs.map (fun kv => JValue.str kv.1))) ∧
    (∀ xs, v = JValue.arr xs → process_tags_safely litEval v = JValue.arr xs) ∧
    (∀ s, v = JValue.str s →
      process_tags_safely litEval v =
        (match litEval s with
         | some (JValue.obj kvs) => JValue.arr (kvs.map (fun kv => JValue.str kv.1))
         | some (JValue.arr xs) => JValue.arr xs
         | _ => JValue.arr [])) ∧
    (v = JValue.null → process_tags_safely litEval v = JValue.arr []) ∧
    (∀ b, v = JValue.bool b → process_tags_safely litEval v = JValue.arr []) ∧
    (∀ q, v = JValue.num q → process_tags_safely litEval v = JValue.arr []) := by
  refine ⟨?_, ?_, ?_, ?_, ?_, ?_, ?_⟩
  · cases v with
    | str s =>
        cases hlit : litEval s with
        | none => exact ⟨[], by simp [process_tags_safely, hlit]⟩
        | some p =>
            cases p with
            | obj kvs =>
                exact ⟨kvs.map (fun kv => JValue.str kv.1),
                  by simp [process_tags_safely, hlit]⟩
            | arr xs => exact ⟨xs, by simp [process_tags_safely, hlit]⟩
            | null => exact ⟨[], by simp [process_tags_safely, hlit]⟩
            | bool b => exact ⟨[], by simp [process_tags_safely, hlit]⟩
            | num q => exact ⟨[], by simp [process_tags_safely, hlit]⟩
            | str s2 => exact ⟨[], by simp [process_tags_safely, hlit]⟩
    | obj kvs => exact ⟨_, rfl⟩
    | arr xs => exact ⟨_, rfl⟩
    | null => exact ⟨[], rfl⟩
    | bool b => exact ⟨[], rfl⟩
    | num q => exact ⟨[], rfl⟩
  · intro kvs hv; subst hv; rfl
  · intro xs hv; subst hv; rfl
  · intro s hv
    subst hv
    cases hlit : litEval s with
    | none => simp [process_tags_safely, hlit]
    | some p => cases p <;> simp [process_tags_safely, hlit]
  · intro hv; subst hv; rfl
  · intro b hv; subst hv; rfl
  · intro q hv; subst hv; rfl

/-- Witness for C4 at a concrete input: text that parses to a mapping
yields the mapping's keys as a list. -/
theorem c4_normalizer_contract_amended_witness :
    process_tags_safely (fun _ => some (JValue.obj [("Indie", JValue.num 1)]))
      (JValue.str "data") = JValue.arr [JValue.str "Indie"] := by
  have h := (c4_normalizer_contract_amended
    (fun _ => some (JValue.obj [("Indie", JValue.num 1)])) (JValue.str "data")).2.2.2.1
    "data" rfl
  simpa using h

/-- C1 counterexample: the coerced counts positive 3, negative −1 (the
loader accepts negative counts) give a returned row whose score_ratio
is 3/2, outside [0, 1], refuting the claim that every returned row has
score_ratio in [0, 1]. -/
theorem c1_counterexample :
    prepare_dataframe (constFS srcNegCount) "data/games.json" = Except.ok tNegCount ∧
    getCell tNegCount "positive" 0 = some (CCell.num 3) ∧
    getCell tNegCount "negative" 0 = some (CCell.num (-1)) ∧
    getCell tNegCount "score_ratio" 0 = some (CCell.num (3 / 2)) ∧
    ¬((3 / 2 : ℚ) ≤ 1) := by
  refine ⟨by rfl, by rfl, by rfl, ?_, by norm_num⟩
  have hcell := prepare_score_cell (constFS srcNegCount) "data/games.json" tNegCount 0
    3 (-1) (by rfl) (by rfl) (by rfl)
  rw [hcell]
  norm_num

/-- C1 (amended): for every row of a table returned by
`prepare_dataframe` whose coerced positive and negative cells are
nonnegative integer counts, score_ratio equals
positive / max(positive+negative, 1) and lies in [0, 1]; in particular
positive 100 / negative 0 yields 1, 0/0 yields 0, 1/1 yields 1/2.  (The
restriction to nonnegative integer counts is forced by the
counterexample: the code divides by the unreplaced sum when it is
nonzero, so negative or fractional coerced counts escape both the
stated formula and the interval.) -/
theorem c1_score_ratio_amended (fs : FileSystem) (path : String) (t : Table)
    (i : ℕ) (a b : ℕ)
    (h : prepare_dataframe fs path = Except.ok t)
    (hp : getCell t "positive" i = some (CCell.num (a : ℚ)))
    (hn : getCell t "negative" i = some (CCell.num (b : ℚ))) :
    getCell t "score_ratio" i =
      some (CCell.num ((a : ℚ) / max ((a : ℚ) + (b : ℚ)) 1)) ∧
    0 ≤ (a : ℚ) / max ((a : ℚ) + (b : ℚ)) 1 ∧
    (a : ℚ) / max ((a : ℚ) + (b : ℚ)) 1 ≤ 1 := by
  have hcell := prepare_score_cell fs path t i (a : ℚ) (b : ℚ) h hp hn
  have hsum : (a : ℚ) + (b : ℚ) = ((a + b : ℕ) : ℚ) := by push_cast; ring
  have hden : (if (a : ℚ) + (b : ℚ) = 0 then (1 : ℚ) else (a : ℚ) + (b : ℚ)) =
      max ((a : ℚ) + (b : ℚ)) 1 := by
    by_cases hz : a + b = 0
    · obtain ⟨ha, hb⟩ := Nat.add_eq_zero.mp hz
      subst ha
      subst hb
      norm_num
    · have h1le : (1 : ℚ) ≤ (a : ℚ) + (b : ℚ) := by
        rw [hsum]
        exact_mod_cast Nat.one_le_iff_ne_zero.mpr hz
      have hnz : (a : ℚ) + (b : ℚ) ≠ 0 := by linarith
      rw [if_neg hnz, max_eq_left h1le]
  have hmaxpos : (0 : ℚ) < max ((a : ℚ) + (b : ℚ)) 1 :=
    lt_of_lt_of_le one_pos (le_max_right _ _)
  refine ⟨?_, ?_, ?_⟩
  · rw [hden] at hcell
    exact hcell
  · exact div_nonneg (Nat.cast_nonneg a) (le_of_lt hmaxpos)
  · refine (div_le_one hmaxpos).mpr ?_
    have hb0 : (0 : ℚ) ≤ (b : ℚ) := Nat.cast_nonneg b
    have : (a : ℚ) ≤ (a : ℚ) + (b : ℚ) := by linarith
    exact le_trans this (le_max_left _ _)

/-- Witness for C1 at a concrete input: the 100 positive / 0 negative
record yields score_ratio 100 / max(100, 1) = 1 with the bounds. -/
theorem c1_score_ratio_amended_witness :
    prepare_dataframe (constFS srcHundred) "data/games.json" = Except.ok tHundred ∧
    (getCell tHundred "score_ratio" 0 =
        some (CCell.num (((100 : ℕ) : ℚ) / max (((100 : ℕ) : ℚ) + ((0 : ℕ) : ℚ)) 1)) ∧
      0 ≤ ((100 : ℕ) : ℚ) / max (((100 : ℕ) : ℚ) + ((0 : ℕ) : ℚ)) 1 ∧
      ((100 : ℕ) : ℚ) / max (((100 : ℕ) : ℚ) + ((0 : ℕ) : ℚ)) 1 ≤ 1) ∧
    ((100 : ℕ) : ℚ) / max (((100 : ℕ) : ℚ) + ((0 : ℕ) : ℚ)) 1 = 1 :=
  ⟨by rfl,
   c1_score_ratio_amended (constFS srcHundred) "data/games.json" tHundred 0 100 0
     (by rfl) (by rfl) (by rfl),
   by norm_num⟩

/-- C2: the claim says `prepare_dataframe` tolerates total absence of
any raw field, but a source whose records carry only a name makes the
loader read the nonexistent release_date column and fail with a
KeyError; the projection comment in the code states the intersection
exists precisely to avoid KeyErrors, so the spec describes the intent
and the unconditional column reads are the slip. -/
theorem c2_missing_field_keyerror :
    prepare_dataframe (constFS srcOnlyName) "data/games.json" =
      Except.error (LoadError.keyError "release_date") := by rfl

/-- C3 counterexample: in a source whose genres column exists but holds
null for one record, the returned table keeps the missing marker in
that genres cell, which is not list-typed, refuting the claim that
every returned genres cell is a list. -/
theorem c3_counterexample :
    prepare_dataframe (constFS srcGenresNull) "data/games.json" = Except.ok tGenresNull ∧
    getCell tGenresNull "genres" 1 = some CCell.missing ∧
    isListCell CCell.missing = false := ⟨by rfl, by rfl, by rfl⟩

/-- C3 (amended): every tags cell of a returned table is mapping- or
list-typed regardless of the raw shape; genres cells are the empty list
for every row when the source omits the genres field entirely, but when
the genres column exists its cells pass through unnormalized (so a null
or scalar genres value survives, as the counterexample shows). -/
theorem c3_shape_invariants_amended (fs : FileSystem) (path : String) (src : Source)
    (t : Table) (hfs : fs path = some src)
    (h : prepare_dataframe fs path = Except.ok t) :
    (∀ i c, getCell t "tags" i = some c → isDictOrListCell c = true) ∧
    (sourceHasCol (ingest src) "genres" = false →
      ∀ i c, getCell t "genres" i = some c → c = CCell.jval (JValue.arr [])) := by
  constructor
  · intro i c hc
    obtain ⟨tv, htv, hall⟩ := prepare_tags_col fs path t h
    unfold getCell at hc
    rw [htv] at hc
    simp only [Option.some_bind] at hc
    exact hall c (mem_of_get?_eq tv i c hc)
  · intro hg i c hc
    have hcol := prepare_genres_absent fs path src t hfs h hg
    unfold getCell at hc
    rw [hcol] at hc
    simp only [Option.some_bind] at hc
    exact List.eq_of_mem_replicate (mem_of_get?_eq _ i c hc)

/-- Witness for C3 at a concrete input: a source without tags and
genres fields yields an empty-dict tags cell (mapping-typed) and an
empty-list genres cell. -/
theorem c3_shape_invariants_amended_witness :
    getCell tHundred "tags" 0 = some (CCell.jval (JValue.obj [])) ∧
    isDictOrListCell (CCell.jval (JValue.obj [])) = true ∧
    getCell tHundred "genres" 0 = some (CCell.jval (JValue.arr [])) :=
  ⟨by rfl,
   (c3_shape_invariants_amended (constFS srcHundred) "data/games.json" srcHundred
     tHundred rfl (by rfl)).1 0 (CCell.jval (JValue.obj [])) (by rfl),
   by rfl⟩

/-- C7: for every source file with N raw records, keyed-mapping-shaped
or array-shaped, a successfully returned table has exactly N rows, no
matter how malformed individual fields are; no row is silently
dropped. -/
theorem c7_row_count_preserved (fs : FileSystem) (path : String) (src : Source)
    (t : Table) (hfs : fs path = some src)
    (h : prepare_dataframe fs path = Except.ok t) :
    t.nrows = sourceRecordCount src := by
  rw [prepare_ok_nrows fs path src t hfs h]
  cases src with
  | keyed records => simp [ingest, sourceRecordCount]
  | array records => simp [ingest, sourceRecordCount]

/-- Witness for C7 at a concrete input: the two-record source (one of
them with a null genres field) yields a two-row table. -/
theorem c7_row_count_preserved_witness :
    prepare_dataframe (constFS srcGenresNull) "data/games.json" = Except.ok tGenresNull ∧
    tGenresNull.nrows = sourceRecordCount srcGenresNull ∧
    sourceRecordCount srcGenresNull = 2 :=
  ⟨by rfl,
   c7_row_count_preserved (constFS srcGenresNull) "data/games.json" srcGenresNull
     tGenresNull rfl (by rfl),
   by rfl⟩

/-- C8: when the path resolves to no file, `prepare_dataframe` fails
with the source-not-found error before any parsing (the result is that
error for every source content, which is never inspected); when the
file exists, the source-not-found error is never raised. -/
theorem c8_source_existence_check (fs : FileSystem) (path : String) :
    (fs path = none →
      prepare_dataframe fs path = Except.error LoadError.sourceNotFound) ∧
    (∀ src, fs path = some src →
      prepare_dataframe fs path ≠ Except.error LoadError.sourceNotFound) := by
  constructor
  · intro h
    unfold prepare_dataframe
    rw [h]
  · intro src h hcontra
    unfold prepare_dataframe at hcontra
    rw [h] at hcontra
    have h2 : (match coerceDates (initTable (ingest src)) with
        | Except.error e => (Except.error e : Except LoadError Table)
        | Except.ok t1 =>
            addDerived (defaultGenres (normalizeTags (coerceNumerics t1)))) =
        Except.error LoadError.sourceNotFound := hcontra
    cases hcd : coerceDates (initTable (ingest src)) with
    | error e =>
        rw [hcd] at h2
        have he : e = LoadError.sourceNotFound := by
          injection h2
        rw [he] at hcd
        have h3 := coerceDates_error_shape _ _ hcd
        exact LoadError.noConfusion h3
    | ok t1 =>
        rw [hcd] at h2
        rcases addDerived_error_shape _ _ h2 with h3 | h3 <;> exact LoadError.noConfusion h3

/-- Witness for C8 at concrete inputs: the empty file system yields the
source-not-found error, an existing source never does. -/
theorem c8_source_existence_check_witness :
    emptyFS "data/games.json" = none ∧
    prepare_dataframe emptyFS "data/games.json" = Except.error LoadError.sourceNotFound ∧
    constFS srcHundred "data/games.json" = some srcHundred ∧
    prepare_dataframe (constFS srcHundred) "data/games.json" ≠
      Except.error LoadError.sourceNotFound :=
  ⟨rfl, (c8_source_existence_check emptyFS "data/games.json").1 rfl, rfl,
   (c8_source_existence_check (constFS srcHundred) "data/games.json").2 srcHundred rfl⟩

/-- C9: in the loader's tag normalization, a tags cell that is neither
a mapping nor a list is replaced by the empty mapping; in particular a
string representation of tag data yields the empty mapping whatever the
string content is, so the loader does not parse string tags and their
content is lost at the loader boundary. -/
theorem c9_string_tags_lost (fs : FileSystem) (path : String) (src : Source)
    (t : Table) (i : ℕ) (r : RawRecord)
    (hfs : fs path = some src) (h : prepare_dataframe fs path = Except.ok t)
    (hr : (ingest src).get? i = some r) :
    (sourceHasCol (ingest src) "tags" = true →
      isDictOrListCell (rawCell r "tags") = false →
      getCell t "tags" i = some (CCell.jval (JValue.obj []))) ∧
    (∀ s, lookupField r "tags" = some (JValue.str s) →
      getCell t "tags" i = some (CCell.jval (JValue.obj []))) := by
  have hgen : sourceHasCol (ingest src) "tags" = true →
      isDictOrListCell (rawCell r "tags") = false →
      getCell t "tags" i = some (CCell.jval (JValue.obj [])) := by
    intro hsrc hshape
    have hcol := prepare_tags_provenance fs path src t hfs h hsrc
    unfold getCell
    rw [hcol]
    simp only [Option.some_bind]
    rw [get?_of_map, get?_of_map, hr]
    simp only [Option.map_some']
    rw [tagCellNormalize_of_not_shaped _ hshape]
  refine ⟨hgen, fun s hs => ?_⟩
  have hsrc : sourceHasCol (ingest src) "tags" = true := by
    unfold sourceHasCol
    rw [List.any_eq_true]
    exact ⟨r, mem_of_get?_eq _ i r hr, by rw [hs]; rfl⟩
  have hra : rawCell r "tags" = CCell.jval (JValue.str s) := by
    unfold rawCell
    rw [hs]
  exact hgen hsrc (by rw [hra]; rfl)

/-- Witness for C9 at a concrete input: the record whose tags field is
the string form of tag data gets the empty mapping as its tags cell. -/
theorem c9_string_tags_lost_witness :
    lookupField recGenresList "tags" = some (JValue.str "stringified tag data") ∧
    getCell tGenresNull "tags" 0 = some (CCell.jval (JValue.obj [])) :=
  ⟨rfl,
   (c9_string_tags_lost (constFS srcGenresNull) "data/games.json" srcGenresNull
     tGenresNull 0 recGenresList rfl (by rfl) (by rfl)).2 "stringified tag data" rfl⟩
